import Mathlib

/-!
Verification of the crawl-orchestration core of the repository against its
natural-language specification.  The Python sources are shallowly embedded:
classes become structures, methods become functions, in-place mutation becomes
explicit state passing, and `raise`/`None`-returning error paths become
`Except`/`Option` results.  External collaborators (HTTP fetching, the remote
DeepSeek API) are parameters of the embedded functions, mirroring the spec's
collaborator boundaries.
-/

namespace Spec2Proof

/-! ## URLManager (`webscraper/url/url_manager.py`)

`visited` is a Python `set` (modelled as a duplicate-free list), `queue` a
`deque` used FIFO (append at the back, pop at the front), `max` the
`max_urls` capacity argument (default 200 at the call sites). -/

structure URLManager where
  visited : List String
  queue   : List String
  max     : Nat
deriving Repr, DecidableEq

/-- `URLManager.__init__`: empty visited set, empty queue, given capacity. -/
def URLManager.init (maxUrls : Nat) : URLManager :=
  { visited := [], queue := [], max := maxUrls }

/-- `URLManager.add_urls`: for each `u` in order, append it to the queue when
`u not in self.visited and len(self.queue) < self.max`. -/
def URLManager.add_urls (m : URLManager) (urls : List String) : URLManager :=
  urls.foldl
    (fun s u =>
      if u ∉ s.visited ∧ s.queue.length < s.max then
        { s with queue := s.queue ++ [u] }
      else s)
    m

/-- `URLManager.get_next_url`: `popleft` when the queue is non-empty, else
`None`; returns the popped value together with the successor state. -/
def URLManager.get_next_url (m : URLManager) : Option String × URLManager :=
  match m.queue with
  | []      => (none, m)
  | u :: tl => (some u, { m with queue := tl })

/-- `URLManager.mark_visited`: `self.visited.add(u)` (set insertion). -/
def URLManager.mark_visited (m : URLManager) (u : String) : URLManager :=
  { m with visited := if u ∈ m.visited then m.visited else m.visited ++ [u] }

/-- `URLManager.should_visit`: `u not in visited and len(visited) < max`. -/
def URLManager.should_visit (m : URLManager) (u : String) : Bool :=
  decide (u ∉ m.visited ∧ m.visited.length < m.max)

/-- One client-visible frontier operation. -/
inductive FrontierOp where
  | addUrls (urls : List String)
  | nextUrl
  | markVisited (u : String)
deriving Repr

def applyFrontierOp (m : URLManager) : FrontierOp → URLManager
  | .addUrls urls  => m.add_urls urls
  | .nextUrl       => m.get_next_url.2
  | .markVisited u => m.mark_visited u

def runFrontierOps (m : URLManager) (ops : List FrontierOp) : URLManager :=
  ops.foldl applyFrontierOp m

/-! ## CrawlerManager (`webscraper/manager/crawler_manager.py`)

`start_crawl` seeds the frontier, loops popping URLs until the pop is falsy
(Python `if not url: break` — both `None` and the empty string are falsy),
runs every item produced by the spider through `DataProcessor.process_item`,
collects `processed.to_dict()` for non-`None` results, and finally calls
`storage.save_data(rows, "export")` only under `if rows:`.

The spider (`KeywordSpider.parse`, an HTTP fetch) and the data processor are
collaborator parameters `parse` and `proc`; the storage collaborator is
observed through the list of `save_data` invocations the run performs. -/

/-- Modelled from the spec: the `CrawlItem` record.  The module
`webscraper/models/crawl_item.py` is not among the sources; fields follow
spec §3 (Item) and the constructor call
`CrawlItem(url=url, title=title, content=text)` in `KeywordSpider.parse`. -/
structure CrawlItem where
  url     : String
  title   : String
  content : String
deriving Repr, DecidableEq

/-- Modelled from the spec: `CrawlItem.to_dict` (also in the missing
`crawl_item.py`); serializes the record into the field-to-value mapping the
Exporter consumes (spec §6). -/
def CrawlItem.to_dict (it : CrawlItem) : List (String × String) :=
  [("url", it.url), ("title", it.title), ("content", it.content)]

/-- One row handed to the storage collaborator (`processed.to_dict()`). -/
abbrev Row := List (String × String)

/-- The `while True` loop of `start_crawl`, structurally recursing on the
queue (the loop body only ever pops the frontier queue via `get_next_url`,
so the queue list is the loop's only changing frontier component; `visited`
and `max` are untouched).  Returns the leftover queue (non-empty only when
the loop broke on a falsy — empty-string — URL) and the accumulated rows. -/
def crawlLoop (parse : String → List CrawlItem)
    (proc : CrawlItem → Option CrawlItem) :
    List String → List Row → List String × List Row
  | [], rows => ([], rows)
  | u :: tl, rows =>
    if u = "" then (tl, rows)
    else crawlLoop parse proc tl
      (rows ++ ((parse u).filterMap proc).map CrawlItem.to_dict)

/-- Observable outcome of one `start_crawl` run: final frontier state, the
accumulated `rows`, every `storage.save_data` invocation (arguments in call
order), and the returned `{"items": len(rows)}` count. -/
structure CrawlRun where
  manager       : URLManager
  rows          : List Row
  saveCalls     : List (List Row × String)
  itemsReported : Nat
deriving Repr, DecidableEq

/-- `CrawlerManager.start_crawl`: seed the frontier with `add_urls`, run the
crawl loop, then `if rows: storage.save_data(rows, "export")`.  `maxUrls` is
the frontier capacity (`URLManager()` default 200 in `WebScraperApp`). -/
def start_crawl (parse : String → List CrawlItem)
    (proc : CrawlItem → Option CrawlItem)
    (maxUrls : Nat) (urls : List String) : CrawlRun :=
  let m0 := (URLManager.init maxUrls).add_urls urls
  let res := crawlLoop parse proc m0.queue []
  { manager := { m0 with queue := res.1 }
    rows := res.2
    saveCalls := if res.2 = [] then [] else [(res.2, "export")]
    itemsReported := res.2.length }

/-! ## InputSanitizer (`webscraper/processing/input_sanitizer.py`)

`TAG_RE = re.compile(r"(?is)<(script|iframe)[^>]*>.*?</\\1>")`.  In the raw
Python string, `\\1` is an escaped backslash followed by the digit `1` — a
literal 5-character closing token `</\1>`, not a backreference; the embedding
reproduces that faithfully.  A match is therefore: `<`, then `script` or
`iframe` case-insensitively, then everything up to and including the first
`>` (`[^>]*>` cannot cross a `>`), then — lazily, with `.` matching
newlines — everything up to and including the first literal `</\1>`.
`TAG_RE.sub("", s)` removes the leftmost non-overlapping matches. -/

/-- `pat` is a prefix of the input (char-exact). -/
def startsWithChars : List Char → List Char → Bool
  | [], _ => true
  | _ :: _, [] => false
  | p :: ps, c :: cs => p == c && startsWithChars ps cs

/-- Python's substring test `pat in hay` over char lists. -/
def containsChars : List Char → List Char → Bool
  | [], pat => startsWithChars pat []
  | c :: cs, pat => startsWithChars pat (c :: cs) || containsChars cs pat

/-- Python's `pat in hay` on strings. -/
def strContains (hay pat : String) : Bool :=
  containsChars hay.toList pat.toList

/-- Python's `s.lower()` (per-character lowering, ASCII inputs). -/
def strLower (s : String) : String :=
  String.mk (s.toList.map Char.toLower)

/-- Python's `s.strip()`: drop whitespace from both ends. -/
def pyStrip (s : String) : String :=
  String.mk
    (((s.toList.dropWhile Char.isWhitespace).reverse.dropWhile
      Char.isWhitespace).reverse)

/-- The literal closing token `</\1>` required by the pattern. -/
def closingTok : List Char := ['<', '/', '\\', '1', '>']

/-- Case-insensitive match of a (lower-case) tag-name pattern against the
input; returns the remaining input on success. -/
def ciMatch : List Char → List Char → Option (List Char)
  | [], cs => some cs
  | _ :: _, [] => none
  | p :: ps, c :: cs => if c.toLower = p then ciMatch ps cs else none

/-- Consume `[^>]*>`: everything up to and including the first `>`. -/
def dropThroughGt : List Char → Option (List Char)
  | [] => none
  | c :: cs => if c = '>' then some cs else dropThroughGt cs

/-- Consume `.*?</\1>` (dotall, lazy): everything up to and including the
first occurrence of the literal token `</\1>`. -/
def dropThroughClosing : List Char → Option (List Char)
  | [] => none
  | c :: cs =>
    if (c :: cs).take 5 = closingTok then some ((c :: cs).drop 5)
    else dropThroughClosing cs

/-- Try to match `TAG_RE` starting exactly at the head of the input; on
success return the input that remains after the match. -/
def tagMatchAt (cs : List Char) : Option (List Char) :=
  match cs with
  | '<' :: rest =>
    let afterName :=
      match ciMatch "script".toList rest with
      | some r => some r
      | none => ciMatch "iframe".toList rest
    match afterName with
    | none => none
    | some r =>
      match dropThroughGt r with
      | none => none
      | some r2 => dropThroughClosing r2
  | _ => none

/-- `TAG_RE.sub("", ·)` over char lists: scan left to right, removing each
leftmost match and continuing after it.  Every step consumes at least one
character, so fuel equal to the input length makes the recursion total. -/
def subTags : Nat → List Char → List Char
  | 0, cs => cs
  | _ + 1, [] => []
  | fuel + 1, c :: cs =>
    match tagMatchAt (c :: cs) with
    | some rest => subTags fuel rest
    | none => c :: subTags fuel cs

/-- `InputSanitizer.strip_scripts`: `TAG_RE.sub("", x)`. -/
def strip_scripts (s : String) : String :=
  String.mk (subTags s.toList.length s.toList)

/-- `InputSanitizer.remove_iframes`: also `TAG_RE.sub("", x)` (the source
uses the same compiled pattern for both methods). -/
def remove_iframes (s : String) : String :=
  String.mk (subTags s.toList.length s.toList)

/-! ## DataProcessor (`webscraper/processing/data_processor.py`) with its
SchemaValidator and DeepSeek collaborators. -/

/-- `DataProcessor.clean_text`:
`self.sanitizer.strip_scripts(self.sanitizer.remove_iframes(text))`. -/
def clean_text (text : String) : String :=
  strip_scripts (remove_iframes text)

/-- `SchemaValidator.validate(data, required)`: `data` must be a dict (the
embedding's type guarantees it) containing every key of `required`. -/
def SchemaValidator.validate (data : List (String × String))
    (required : List String) : Bool :=
  required.all (fun k => data.any (fun kv => kv.1 == k))

/-- `DeepSeekAdapter.extract_json` (the source's stub for the external API):
`{k: "" for k in fields}` — every requested field mapped to the empty
string, later duplicates overwriting earlier ones. -/
def extract_json (fields : List String) : List (String × String) :=
  fields.foldl
    (fun d k =>
      if d.any (fun kv => kv.1 == k) then
        d.map (fun kv => if kv.1 == k then (k, "") else kv)
      else d ++ [(k, "")])
    []

/-- `DataProcessor.filter_by_keywords`: `True` on an empty keyword list,
else `any(k.lower() in content.lower() for k in keywords)`. -/
def filter_by_keywords (content : String) (keywords : List String) : Bool :=
  if keywords.isEmpty then true
  else keywords.any (fun k => strContains (strLower content) (strLower k))

/-- `DataProcessor.calculate_relevance_score`: `min(1.0, len(content) / 5000.0)`,
modelled over `ℚ` (the float computation is exact for all representable
lengths, and the claimed range/monotonicity facts are division-order facts
that hold identically for IEEE doubles here). -/
def calculate_relevance_score (content : String) : ℚ :=
  min 1 ((content.length : ℚ) / 5000)

/-- `DataProcessor.process_item(item, fields)`.  The DeepSeek call
`self.deepseek.parse_data(item.content, fields=fields)` is the external
analyzer collaborator (its in-repo stand-in is `extract_json`, a TODO stub),
so it is a parameter `parseData`; an exception from it is `Except.error`.
The function first overwrites `item.content` in place with the cleaned text;
the result is the caller's item after that mutation, paired with the
returned value (`some` item, or `none` on the `except Exception` path).
Note the source's control flow: when `validate` returns `False` the `if`
falls through to the trailing `return item`, so both branches of the
embedded `if` coincide — validation failure does not drop the item. -/
def process_item (parseData : String → Except String (List (String × String)))
    (item : CrawlItem) (fields : List String) : CrawlItem × Option CrawlItem :=
  let item1 := { item with content := clean_text item.content }
  match parseData item1.content with
  | .error _ => (item1, none)
  | .ok data =>
    if SchemaValidator.validate data fields then (item1, some item1)
    else (item1, some item1)

/-- Spec §4.2 stage outcome: `Forward(Item')` or `Drop(reason)`. -/
inductive Outcome (α : Type) where
  | forward (it : α)
  | drop (reason : String)
deriving Repr, DecidableEq

/-- Modelled from the spec: spec §3 Item restricted to the fields the
RelevanceScorer stage touches (`cleanedContent`, `relevanceScore`); the
source has no standalone scorer stage, only the scoring function above. -/
structure ScoredItem where
  cleanedContent : String
  relevanceScore : ℚ
deriving Repr, DecidableEq

/-- Modelled from the spec: the RelevanceScorer pipeline stage (§4.2) — it
sets `relevanceScore` with the source's `calculate_relevance_score` and
always forwards; it has no `Drop` branch. -/
def relevanceScorerStage (it : ScoredItem) : Outcome ScoredItem :=
  Outcome.forward
    { it with relevanceScore := calculate_relevance_score it.cleanedContent }

/-! ## Scrapy item dicts (`web-crawler-project/HTMLCrawler`)

Scrapy items are dict-like: value type `JVal` mirrors the JSON-ish values
the pipelines store, and a dict is an insertion-ordered association list
with Python-dict update semantics (replace in place, else append). -/

inductive JVal where
  | s (v : String)
  | n (v : Nat)
  | arr (v : List JVal)
  | obj (v : List (String × JVal))

/-- `d.get(k, dflt)`. -/
def dget {α : Type} : List (String × α) → String → α → α
  | [], _, dflt => dflt
  | kv :: rest, k, dflt => if kv.1 == k then kv.2 else dget rest k dflt

/-- `d[k] = v`: replace the (unique) existing binding in place, else append. -/
def dset {α : Type} : List (String × α) → String → α → List (String × α)
  | [], k, v => [(k, v)]
  | kv :: rest, k, v =>
    if kv.1 == k then (k, v) :: rest else kv :: dset rest k v

/-- `k in d`. -/
def dhas {α : Type} : List (String × α) → String → Bool
  | [], _ => false
  | kv :: rest, k => kv.1 == k || dhas rest k

/-- String content of a `JVal` the way the pipelines read `title`/`content`/
`url` values (they are always stored as strings; non-strings never occur). -/
def jstr : JVal → String
  | .s v => v
  | _ => ""

/-- The string elements of a stored list value. -/
def jStrList : JVal → List String
  | .arr vs => vs.filterMap (fun v => match v with | .s x => some x | _ => none)
  | _ => []

/-! ## KeywordMatchingPipeline (`HTMLCrawler/pipelines.py`) -/

/-- `KeywordMatchingPipeline.__init__`: keywords lower-cased once. -/
def kmInit (keywords : List String) : List String :=
  keywords.map (fun k => strLower k)

/-- The text searched: `f"{item.get('title','')} {item.get('content','')}".lower()`. -/
def kmText (item : List (String × JVal)) : String :=
  strLower (jstr (dget item "title" (.s "")) ++ " " ++
    jstr (dget item "content" (.s "")))

/-- The keywords (from the stored, lower-cased list) found as substrings. -/
def kmMatched (keywords : List String) (item : List (String × JVal)) :
    List String :=
  keywords.filter (fun k => strContains (kmText item) k)

/-- `KeywordMatchingPipeline.process_item`.  `keywords` is the stored
(lower-cased) list; ` strict` models
`hasattr(spider, 'filter_by_keywords') and spider.filter_by_keywords`.
`Except.error` is the raised `DropItem` with its message (the source reads
`item['url']` for the message; items carry a `url` key). -/
def keywordMatchingProcess (keywords : List String) ( strict : Bool)
    (item : List (String × JVal)) : Except String (List (String × JVal)) :=
  if keywords.isEmpty then .ok item
  else
    let matched := kmMatched keywords item
    let item2 := dset item "matched_keywords" (.arr (matched.map JVal.s))
    if strict && matched.isEmpty then
      .error ("No matching keywords found in " ++ jstr (dget item "url" (.s "")))
    else .ok item2

/-! ## DeepSeekAnalysisPipeline (`HTMLCrawler/pipelines.py`)

`process_item` returns the item unchanged when the pipeline is disabled or
the parser missing (` enabled` conflates `self.enabled and self.parser`,
which the source only ever sets together), or when the item has no content.
Otherwise it calls the external analyzer (`parser.parse_content`, parameter
`analysis`; `Except.error` is an exception from the call), merges the
enrichment keys, and — only when the spider opts in — calls
`parser.extract_keywords_ai` (parameter `aiKeywords`).  Every exception is
caught by the `try/except` and the item, with whatever enrichment keys were
already set in place before the failure, is returned.  `DropItem` is never
raised.  Python's `list(set(a + b))` has unspecified order; the embedding
takes the first-occurrence deduplication as its representative. -/

def dsEnrichmentKeys : List String :=
  ["ai_summary", "ai_entities", "ai_topics", "ai_sentiment", "ai_key_points",
   "ai_structured_data", "ai_analysis_timestamp", "ai_keywords",
   "enhanced_keywords"]

def deepseekAnalysisProcess ( enabled : Bool)
    (analysis : Except String (List (String × JVal)))
    (useAiKeywords : Bool) (aiKeywords : Except String (List String))
    (item : List (String × JVal)) : Except String (List (String × JVal)) :=
  if ! enabled then .ok item
  else if jstr (dget item "content" (.s "")) = "" then .ok item
  else
    match analysis with
    | .error _ => .ok item
    | .ok a =>
      let item7 :=
        dset (dset (dset (dset (dset (dset (dset item
          "ai_summary" (dget a "summary" (.s "")))
          "ai_entities" (dget a "entities" (.arr [])))
          "ai_topics" (dget a "topics" (.arr [])))
          "ai_sentiment" (dget a "sentiment" (.s "neutral")))
          "ai_key_points" (dget a "key_points" (.arr [])))
          "ai_structured_data" (dget a "structured_data" (.obj [])))
          "ai_analysis_timestamp" (dget a "analysis_timestamp" (.s ""))
      if useAiKeywords then
        match aiKeywords with
        | .error _ => .ok item7
        | .ok kws =>
          let combined :=
            (jStrList (dget item7 "matched_keywords" (.arr [])) ++ kws).dedup
          .ok (dset (dset item7
            "ai_keywords" (.arr (kws.map JVal.s)))
            "enhanced_keywords" (.arr (combined.map JVal.s)))
      else .ok item7

/-- The items surviving the analysis stage out of `items` (an `Except.error`
would be a `DropItem`). -/
def dsSurvivors ( enabled : Bool)
    (analysis : Except String (List (String × JVal)))
    (useAiKeywords : Bool) (aiKeywords : Except String (List String))
    (items : List (List (String × JVal))) : List (List (String × JVal)) :=
  items.filterMap
    (fun it =>
      (deepseekAnalysisProcess enabled analysis useAiKeywords aiKeywords
        it).toOption)

/-! ## DeepSeekParser fallback (`HTMLCrawler/deepseek_parser.py`)

`_fallback_parse` and the `if not self.enabled` branch of `parse_content`.
String operations assume ASCII input (Python's `str.lower`, `\w`, `\s` and
the embedding's char functions agree there).  `datetime.now().isoformat()`
is the parameter `ts`; `list(set(...))` order is represented by
first-occurrence deduplication. -/

def positive_words : List String :=
  ["good", "great", "excellent", "amazing", "wonderful", "fantastic"]

def negative_words : List String :=
  ["bad", "terrible", "awful", "horrible", "poor", "disappointing"]

/-- `sum(1 for word in ws if word in lowered)`. -/
def countContained (ws : List String) (lowered : String) : Nat :=
  (ws.filter (fun w => strContains lowered w)).length

/-- The sentiment branch of `_fallback_parse`. -/
def fallbackSentiment (content : String) : String :=
  let pos := countContained positive_words (strLower content)
  let neg := countContained negative_words (strLower content)
  if pos > neg then "positive"
  else if neg > pos then "negative"
  else "neutral"

/-- Python regex word characters (`\w`, ASCII). -/
def isWordChar (c : Char) : Bool := c.isAlpha || c.isDigit || c == '_'

/-- `re.findall(r'\b[A-Z][a-z]+\b', content)`: at a position whose previous
character is not a word character, an upper-case letter followed by a
maximal non-empty run of lower-case letters, the run's end falling on a word
boundary.  Fuel-based scan; every step consumes at least one character, so
fuel equal to the input length suffices. -/
def findCapitalized : Nat → Bool → List Char → List String
  | 0, _, _ => []
  | _ + 1, _, [] => []
  | fuel + 1, prevIsWord, c :: cs =>
    if !prevIsWord && c.isUpper then
      let run := cs.takeWhile (fun d => d.isLower)
      let rest := cs.drop run.length
      if run.length > 0 && !isWordChar (rest.headD ' ') then
        String.mk (c :: run) :: findCapitalized fuel true rest
      else findCapitalized fuel (isWordChar c) cs
    else findCapitalized fuel (isWordChar c) cs

/-- The `entities` value: `list(set(re.findall(...)))[:10]`. -/
def fallbackEntities (content : String) : List String :=
  ((findCapitalized content.toList.length false content.toList).dedup).take 10

/-- The `summary` value: the prefix before the first `.`/`!`/`?` (the head
of `re.split(r'[.!?]+', content)`), truncated at 200 characters with a
`"..."` suffix when longer, and finally `.strip()`-ed. -/
def fallbackSummary (content : String) : String :=
  let first := content.toList.takeWhile
    (fun c => !(c == '.' || c == '!' || c == '?'))
  pyStrip (if first.length > 200 then String.mk (first.take 200) ++ "..."
   else String.mk first)

/-- `len(content.split())`: the number of maximal non-whitespace runs. -/
def wsCount : List Char → Bool → Nat
  | [], _ => 0
  | c :: cs, inTok =>
    if c.isWhitespace then wsCount cs false
    else (if inTok then 0 else 1) + wsCount cs true

/-- `len(content.split())`. -/
def fallbackWordCount (content : String) : Nat :=
  wsCount content.toList false

/-- `DeepSeekParser._fallback_parse(content, url, title)` (the source reads
neither `url` nor `title`). -/
def fallback_parse (content _url _title ts : String) : List (String × JVal) :=
  [("summary", JVal.s (fallbackSummary content)),
   ("entities", JVal.arr ((fallbackEntities content).map JVal.s)),
   ("topics", JVal.arr []),
   ("sentiment", JVal.s (fallbackSentiment content)),
   ("key_points", JVal.arr []),
   ("structured_data", JVal.obj
     [("word_count", JVal.n (fallbackWordCount content)),
      ("content_type", JVal.s "webpage"),
      ("parser_used", JVal.s "fallback")]),
   ("analysis_timestamp", JVal.s ts),
   ("parser_used", JVal.s "fallback")]

/-- `DeepSeekParser.parse_content`: disabled → `_fallback_parse`; enabled →
the API call plus `_parse_ai_response` (collaborator parameter
`apiAnalysis`), whose result keys are read with defaults; any exception →
`_fallback_parse`. -/
def parse_content ( enabled : Bool)
    (apiAnalysis : Except String (List (String × JVal)))
    (content url title ts : String) : List (String × JVal) :=
  if ! enabled then fallback_parse content url title ts
  else
    match apiAnalysis with
    | .error _ => fallback_parse content url title ts
    | .ok parsed =>
      [("summary", dget parsed "summary" (JVal.s "")),
       ("entities", dget parsed "entities" (JVal.arr [])),
       ("topics", dget parsed "topics" (JVal.arr [])),
       ("sentiment", dget parsed "sentiment" (JVal.s "neutral")),
       ("key_points", dget parsed "key_points" (JVal.arr [])),
       ("structured_data", dget parsed "structured_data" (JVal.obj [])),
       ("analysis_timestamp", JVal.s ts),
       ("parser_used", JVal.s "deepseek")]

/-! ### Dict lemmas -/

theorem dget_dset_ne {α : Type} (d : List (String × α)) (k k' : String)
    (v dflt : α) (h : k ≠ k') :
    dget (dset d k' v) k dflt = dget d k dflt := by
  induction d with
  | nil =>
    simp only [dset, dget, beq_iff_eq]
    rw [if_neg (fun he => h he.symm)]
  | cons kv rest ih =>
    by_cases hk : kv.1 = k'
    · simp only [dset, beq_iff_eq, if_pos hk, dget]
      rw [if_neg (fun he => h he.symm), if_neg (by rw [hk]; exact fun he => h he.symm)]
    · simp only [dset, beq_iff_eq, if_neg hk, dget]
      by_cases hke : kv.1 = k
      · rw [if_pos hke, if_pos hke]
      · rw [if_neg hke, if_neg hke]
        exact ih

/-- Every call of the DeepSeek analysis stage forwards: the result is `.ok`
of an item that agrees with the input on every non-enrichment key. -/
theorem ds_process_ok ( enabled : Bool)
    (analysis : Except String (List (String × JVal)))
    (useAiKeywords : Bool) (aiKeywords : Except String (List String))
    (item : List (String × JVal)) :
    ∃ item2,
      deepseekAnalysisProcess enabled analysis useAiKeywords aiKeywords item
          = .ok item2 ∧
      ∀ k, k ∉ dsEnrichmentKeys →
        dget item2 k (JVal.s "") = dget item k (JVal.s "") := by
  unfold deepseekAnalysisProcess
  split
  · exact ⟨item, rfl, fun k _ => rfl⟩
  · split
    · exact ⟨item, rfl, fun k _ => rfl⟩
    · cases analysis with
      | error e => exact ⟨item, rfl, fun k _ => rfl⟩
      | ok a =>
        simp only []
        split
        · cases aiKeywords with
          | error e =>
            refine ⟨_, rfl, ?_⟩
            intro k hk
            simp only [dsEnrichmentKeys, List.mem_cons, List.mem_singleton,
              not_or] at hk
            obtain ⟨h1, h2, h3, h4, h5, h6, h7, h8, h9, -⟩ := hk
            rw [dget_dset_ne _ _ _ _ _ h7, dget_dset_ne _ _ _ _ _ h6,
              dget_dset_ne _ _ _ _ _ h5, dget_dset_ne _ _ _ _ _ h4,
              dget_dset_ne _ _ _ _ _ h3, dget_dset_ne _ _ _ _ _ h2,
              dget_dset_ne _ _ _ _ _ h1]
          | ok kws =>
            refine ⟨_, rfl, ?_⟩
            intro k hk
            simp only [dsEnrichmentKeys, List.mem_cons, List.mem_singleton,
              not_or] at hk
            obtain ⟨h1, h2, h3, h4, h5, h6, h7, h8, h9, -⟩ := hk
            rw [dget_dset_ne _ _ _ _ _ h9, dget_dset_ne _ _ _ _ _ h8,
              dget_dset_ne _ _ _ _ _ h7, dget_dset_ne _ _ _ _ _ h6,
              dget_dset_ne _ _ _ _ _ h5, dget_dset_ne _ _ _ _ _ h4,
              dget_dset_ne _ _ _ _ _ h3, dget_dset_ne _ _ _ _ _ h2,
              dget_dset_ne _ _ _ _ _ h1]
        · refine ⟨_, rfl, ?_⟩
          intro k hk
          simp only [dsEnrichmentKeys, List.mem_cons, List.mem_singleton,
            not_or] at hk
          obtain ⟨h1, h2, h3, h4, h5, h6, h7, h8, h9, -⟩ := hk
          rw [dget_dset_ne _ _ _ _ _ h7, dget_dset_ne _ _ _ _ _ h6,
            dget_dset_ne _ _ _ _ _ h5, dget_dset_ne _ _ _ _ _ h4,
            dget_dset_ne _ _ _ _ _ h3, dget_dset_ne _ _ _ _ _ h2,
            dget_dset_ne _ _ _ _ _ h1]

/-! ### Frontier lemmas -/

theorem add_urls_visited (m : URLManager) (urls : List String) :
    (m.add_urls urls).visited = m.visited := by
  induction urls generalizing m with
  | nil => rfl
  | cons u tl ih =>
    simp only [URLManager.add_urls, List.foldl_cons] at *
    split <;> exact ih _

theorem add_urls_max (m : URLManager) (urls : List String) :
    (m.add_urls urls).max = m.max := by
  induction urls generalizing m with
  | nil => rfl
  | cons u tl ih =>
    simp only [URLManager.add_urls, List.foldl_cons] at *
    split <;> exact ih _

theorem add_urls_queue_sub (m : URLManager) (urls : List String) :
    ∀ u, u ∈ (m.add_urls urls).queue → u ∈ m.queue ∨ u ∉ m.visited := by
  induction urls generalizing m with
  | nil => intro u hu; exact Or.inl hu
  | cons v tl ih =>
    intro u hu
    simp only [URLManager.add_urls, List.foldl_cons] at hu
    by_cases hc : v ∉ m.visited ∧ m.queue.length < m.max
    · rw [if_pos hc] at hu
      rcases ih _ u hu with h | h
      · simp only [List.mem_append, List.mem_singleton] at h
        rcases h with h | rfl
        · exact Or.inl h
        · exact Or.inr hc.1
      · exact Or.inr h
    · rw [if_neg hc] at hu
      exact ih _ u hu

theorem add_urls_queue_len (m : URLManager) (urls : List String)
    (h : m.queue.length ≤ m.max) :
    (m.add_urls urls).queue.length ≤ (m.add_urls urls).max := by
  induction urls generalizing m with
  | nil => simpa [URLManager.add_urls] using h
  | cons v tl ih =>
    simp only [URLManager.add_urls, List.foldl_cons] at *
    by_cases hc : v ∉ m.visited ∧ m.queue.length < m.max
    · rw [if_pos hc]
      exact ih _ (by simpa using hc.2)
    · rw [if_neg hc]
      exact ih _ h

theorem add_urls_full (m : URLManager) (urls : List String)
    (h : m.queue.length = m.max) : m.add_urls urls = m := by
  induction urls generalizing m with
  | nil => rfl
  | cons v tl ih =>
    simp only [URLManager.add_urls, List.foldl_cons] at *
    rw [if_neg (fun hc => absurd hc.2 (by omega))]
    exact ih _ h

theorem applyFrontierOp_inv (m : URLManager) (op : FrontierOp)
    (h : m.queue.length ≤ m.max) :
    (applyFrontierOp m op).queue.length ≤ (applyFrontierOp m op).max := by
  cases op with
  | addUrls urls => exact add_urls_queue_len m urls h
  | nextUrl =>
    cases hq : m.queue with
    | nil =>
      simp only [applyFrontierOp, URLManager.get_next_url, hq]
      rw [hq] at h
      exact h
    | cons u tl =>
      simp only [applyFrontierOp, URLManager.get_next_url, hq]
      rw [hq] at h
      simp only [List.length_cons] at h
      omega
  | markVisited u =>
    simpa [applyFrontierOp, URLManager.mark_visited] using h

theorem runFrontierOps_inv (ops : List FrontierOp) (m : URLManager)
    (h : m.queue.length ≤ m.max) :
    (runFrontierOps m ops).queue.length ≤ (runFrontierOps m ops).max := by
  induction ops generalizing m with
  | nil => exact h
  | cons op tl ih =>
    exact ih (applyFrontierOp m op) (applyFrontierOp_inv m op h)

theorem applyFrontierOp_max (m : URLManager) (op : FrontierOp) :
    (applyFrontierOp m op).max = m.max := by
  cases op with
  | addUrls urls => exact add_urls_max m urls
  | nextUrl =>
    cases hq : m.queue <;>
      simp [applyFrontierOp, URLManager.get_next_url, hq]
  | markVisited u => rfl

theorem runFrontierOps_max (ops : List FrontierOp) (m : URLManager) :
    (runFrontierOps m ops).max = m.max := by
  induction ops generalizing m with
  | nil => rfl
  | cons op tl ih =>
    rw [runFrontierOps, List.foldl_cons]
    exact (ih (applyFrontierOp m op)).trans (applyFrontierOp_max m op)

/-! ## Claims -/

/-- C1 counterexample: on a fresh frontier,
`addUrls(["http://a", "http://a"])` enqueues the URL twice (`add_urls` only
checks `visited`, never the queue), so the first `nextUrl()` returns
`"http://a"` and the second returns `"http://a"` again — not the empty
sentinel the claim requires. -/
theorem frontier_duplicate_enqueue_cex :
    ((((URLManager.init 200).add_urls
        ["http://a", "http://a"]).get_next_url).1 = some "http://a") ∧
    (((((URLManager.init 200).add_urls
        ["http://a", "http://a"]).get_next_url).2.get_next_url).1
      = some "http://a") ∧
    (((((URLManager.init 200).add_urls
        ["http://a", "http://a"]).get_next_url).2.get_next_url).1 ≠ none) := by
  decide

/-- C1 (amended): `add_urls` never enqueues a URL that is in `visited` at
the time of the call (every queue entry after the call was already queued,
or was unvisited), but the queue does not deduplicate: adding
`["http://a", "http://a"]` to a fresh frontier queues the URL twice. -/
theorem frontier_visited_not_reenqueued (m : URLManager)
    (urls : List String) :
    (∀ u, u ∈ (m.add_urls urls).queue → u ∈ m.queue ∨ u ∉ m.visited) ∧
    ((URLManager.init 200).add_urls ["http://a", "http://a"]).queue
      = ["http://a", "http://a"] :=
  ⟨add_urls_queue_sub m urls, by decide⟩

theorem frontier_visited_not_reenqueued_witness :
    "x" ∈ (URLManager.mk ["v"] [] 10).queue ∨
      "x" ∉ (URLManager.mk ["v"] [] 10).visited :=
  (frontier_visited_not_reenqueued ⟨["v"], [], 10⟩ ["x"]).1 "x" (by decide)

/-- C8: over any sequence of frontier operations from a fresh frontier the
queue length never exceeds the capacity, and an `add_urls` call on a full
queue is a silent no-op (the excess URLs are dropped without error). -/
theorem frontier_capacity_bound (maxCapacity : Nat) (ops : List FrontierOp) :
    (runFrontierOps (URLManager.init maxCapacity) ops).queue.length
        ≤ maxCapacity ∧
    (∀ m : URLManager, ∀ urls, m.queue.length = m.max →
        m.add_urls urls = m) := by
  constructor
  · have h := runFrontierOps_inv ops (URLManager.init maxCapacity)
      (by simp [URLManager.init])
    rwa [runFrontierOps_max ops (URLManager.init maxCapacity)] at h
  · exact fun m urls h => add_urls_full m urls h

theorem frontier_capacity_bound_witness :
    (runFrontierOps (URLManager.init 2)
        [FrontierOp.addUrls ["a", "b", "c"]]).queue.length ≤ 2 ∧
    (URLManager.mk [] ["a", "b"] 2).add_urls ["c"]
      = URLManager.mk [] ["a", "b"] 2 :=
  ⟨(frontier_capacity_bound 2 [FrontierOp.addUrls ["a", "b", "c"]]).1,
   (frontier_capacity_bound 2 []).2 ⟨[], ["a", "b"], 2⟩ ["c"] (by decide)⟩

/-- C2 counterexample: a run whose spider produces no items accumulates zero
rows, and `storage.save_data` is then never invoked (`if rows:` guards the
flush) — not invoked "exactly once including the case of zero rows". -/
theorem export_skipped_when_no_rows_cex :
    (start_crawl (fun _ => []) (fun it => some it) 200 ["http://a"]).rows
        = [] ∧
    (start_crawl (fun _ => []) (fun it => some it) 200 ["http://a"]).saveCalls
        = [] := by
  decide

/-- C2 (amended): on loop exit the accumulated rows are handed to
`storage.save_data` exactly once when they are non-empty; a zero-row crawl
performs no `save_data` call at all. -/
theorem start_crawl_save_iff_rows (parse : String → List CrawlItem)
    (proc : CrawlItem → Option CrawlItem)
    (maxUrls : Nat) (urls : List String) :
    (start_crawl parse proc maxUrls urls).saveCalls
        = (if (start_crawl parse proc maxUrls urls).rows = [] then []
           else [((start_crawl parse proc maxUrls urls).rows, "export")]) ∧
    ((start_crawl parse proc maxUrls urls).saveCalls.length = 1
        ↔ (start_crawl parse proc maxUrls urls).rows ≠ []) := by
  refine ⟨rfl, ?_⟩
  simp only [start_crawl]
  split
  · simp_all
  · simp_all

/-- C4 counterexample: after a full `start_crawl` run over the single seed
`"http://a"` (spider yielding one item, processor keeping it), the frontier's
visited set is still empty — `"http://a"` was never marked visited, although
the claim requires step 5 of the loop body to mark it. -/
theorem visited_unmarked_after_crawl_cex :
    (start_crawl (fun u => [⟨u, "T", "C"⟩]) (fun it => some it) 200
        ["http://a"]).manager.visited = [] ∧
    "http://a" ∉ (start_crawl (fun u => [⟨u, "T", "C"⟩]) (fun it => some it)
        200 ["http://a"]).manager.visited := by
  decide

/-- C4 (amended): the crawl loop of `start_crawl` never calls
`mark_visited` — after any run from a fresh frontier the visited set is
still empty; the second half of the claim does hold: `get_next_url` itself
leaves the visited set unchanged. -/
theorem start_crawl_never_marks_visited (parse : String → List CrawlItem)
    (proc : CrawlItem → Option CrawlItem)
    (maxUrls : Nat) (urls : List String) :
    (start_crawl parse proc maxUrls urls).manager.visited = [] ∧
    (∀ m : URLManager, m.get_next_url.2.visited = m.visited) := by
  constructor
  · simp only [start_crawl]
    rw [add_urls_visited]
    rfl
  · intro m
    cases hq : m.queue <;> simp [URLManager.get_next_url, hq]

/-- C5: the code slip — `process_item` computes `validate` but returns the
item on both branches; at a parsed record missing the required field
`"title"`, validation is `false`, yet the (content-cleaned) item is returned
rather than dropped, so it reaches the export rows. -/
theorem process_item_keeps_invalid_item :
    SchemaValidator.validate [] ["title"] = false ∧
    (process_item (fun _ => Except.ok []) ⟨"u", "t", "hello"⟩ ["title"]).2
      = some ⟨"u", "t", "hello"⟩ := by
  decide

/-- C7: `calculate_relevance_score` is `min(1, len(content)/5000)`, lies in
`[0, 1]`, is monotone in the content length, and the RelevanceScorer stage
always forwards the scored item (it has no drop branch). -/
theorem relevance_score_props (c : String) :
    calculate_relevance_score c = min 1 ((c.length : ℚ) / 5000) ∧
    0 ≤ calculate_relevance_score c ∧
    calculate_relevance_score c ≤ 1 ∧
    (∀ d : String, c.length < d.length →
        calculate_relevance_score c ≤ calculate_relevance_score d) ∧
    (∀ it : ScoredItem, relevanceScorerStage it
        = Outcome.forward
            { it with
                relevanceScore := calculate_relevance_score it.cleanedContent }) := by
  refine ⟨rfl, ?_, min_le_left _ _, ?_, fun it => rfl⟩
  · unfold calculate_relevance_score
    have h0 : (0 : ℚ) ≤ (c.length : ℚ) / 5000 := by positivity
    exact le_min (by norm_num) h0
  · intro d hd
    unfold calculate_relevance_score
    have hle : (c.length : ℚ) ≤ (d.length : ℚ) := by exact_mod_cast hd.le
    exact min_le_min le_rfl (by gcongr)

theorem relevance_score_props_witness :
    calculate_relevance_score "a" ≤ calculate_relevance_score "bb" :=
  (relevance_score_props "a").2.2.2.1 "bb" (by decide)

/-- C10: `process_item` overwrites `item.content` with the cleaned text
before the analyzer/validation steps: the caller's item is the
content-cleaned record on every path (including the `None`-returning error
path), the returned item — when any — is exactly that mutated record, and
the analyzer collaborator is only ever consulted on the already-cleaned
content. -/
theorem process_item_mutates_first
    (parseData : String → Except String (List (String × String)))
    (item : CrawlItem) (fields : List String) :
    (process_item parseData item fields).1
        = { item with content := clean_text item.content } ∧
    ((process_item parseData item fields).2 = none ∨
      (process_item parseData item fields).2
        = some { item with content := clean_text item.content }) ∧
    (∀ p : String → Except String (List (String × String)),
        p (clean_text item.content) = parseData (clean_text item.content) →
        process_item p item fields = process_item parseData item fields) := by
  have hsc : ∀ q : String → Except String (List (String × String)),
      process_item q item fields =
        match q (clean_text item.content) with
        | .error _ => ({ item with content := clean_text item.content }, none)
        | .ok _ =>
          ({ item with content := clean_text item.content },
            some { item with content := clean_text item.content }) := by
    intro q
    unfold process_item
    cases hq : q (clean_text item.content) with
    | error e => simp [hq]
    | ok data => simp [hq]
  refine ⟨?_, ?_, ?_⟩
  · rw [hsc parseData]
    cases parseData (clean_text item.content) <;> rfl
  · rw [hsc parseData]
    cases parseData (clean_text item.content) with
    | error e => exact Or.inl rfl
    | ok data => exact Or.inr rfl
  · intro p hp
    rw [hsc p, hsc parseData, hp]

theorem process_item_mutates_first_witness :
    process_item
        (fun s => if s = clean_text "x" then Except.error "a" else Except.ok [])
        ⟨"u", "t", "x"⟩ []
      = process_item (fun _ => Except.error "a") ⟨"u", "t", "x"⟩ [] :=
  (process_item_mutates_first (fun _ => Except.error "a") ⟨"u", "t", "x"⟩
      []).2.2 _ (by simp)

/-- C3: the DeepSeek analysis stage is fail-open — whatever the analyzer
outcome (disabled, succeeding, or throwing) and whatever the AI-keyword
extraction outcome, `process_item` forwards an item that agrees with the
input on every non-enrichment key, and the number of items surviving the
stage always equals the number fed in. -/
theorem deepseek_fail_open ( enabled : Bool)
    (analysis : Except String (List (String × JVal)))
    (useAiKeywords : Bool) (aiKeywords : Except String (List String))
    (item : List (String × JVal)) :
    (∃ item2,
      deepseekAnalysisProcess enabled analysis useAiKeywords aiKeywords item
          = .ok item2 ∧
      ∀ k, k ∉ dsEnrichmentKeys →
        dget item2 k (JVal.s "") = dget item k (JVal.s "")) ∧
    (∀ items : List (List (String × JVal)),
      (dsSurvivors enabled analysis useAiKeywords aiKeywords items).length
        = items.length) := by
  refine ⟨ds_process_ok _ _ _ _ _, ?_⟩
  intro items
  induction items with
  | nil => rfl
  | cons it tl ih =>
    obtain ⟨it2, hok, -⟩ :=
      ds_process_ok enabled analysis useAiKeywords aiKeywords it
    simp only [dsSurvivors, List.filterMap_cons, hok, Except.toOption,
      List.length_cons] at *
    omega

theorem deepseek_fail_open_witness :
    ∃ item2,
      deepseekAnalysisProcess true (Except.ok [("summary", JVal.s "s")])
          false (Except.error "x")
          [("content", JVal.s "hello"), ("url", JVal.s "u")] = .ok item2 ∧
      dget item2 "url" (JVal.s "") = JVal.s "u" := by
  obtain ⟨item2, hok, hpres⟩ :=
    (deepseek_fail_open true (Except.ok [("summary", JVal.s "s")]) false
      (Except.error "x")
      [("content", JVal.s "hello"), ("url", JVal.s "u")]).1
  refine ⟨item2, hok, ?_⟩
  rw [hpres "url" (by decide)]
  rfl

/-- C6 counterexample: with an empty configured keyword list and the strict
filter on, the matched set is empty, so the claim requires a
`no-keyword-match` drop — but the stage returns the item unchanged (the
`if not self.keywords: return item` early exit), without even setting
`matched_keywords`. -/
theorem keyword_empty_config_cex :
    keywordMatchingProcess (kmInit []) true
        [("url", JVal.s "http://x"), ("title", JVal.s "t"),
         ("content", JVal.s "c")]
      = Except.ok [("url", JVal.s "http://x"), ("title", JVal.s "t"),
         ("content", JVal.s "c")] ∧
    kmMatched (kmInit [])
        [("url", JVal.s "http://x"), ("title", JVal.s "t"),
         ("content", JVal.s "c")] = [] ∧
    dhas [("url", JVal.s "http://x"), ("title", JVal.s "t"),
         ("content", JVal.s "c")] "matched_keywords" = false :=
  ⟨rfl, rfl, rfl⟩

/-- C6 (amended): when the configured (lower-cased) keyword list is
non-empty, the stage computes `matchedKeywords` as exactly the configured
keywords occurring as substrings of the lower-cased `title ++ " " ++
content` (hence a subset of the configured keywords), drops with the
no-keyword-match `DropItem` iff the strict filter is on and the matched set
is empty, and otherwise forwards with `matched_keywords` set; on the
`["python", "rust"]` example the matched set is exactly `["python"]`.  When
the configured list is empty the stage instead forwards the item unchanged
(see the counterexample). -/
theorem keyword_matcher_spec (keywords : List String) (strict : Bool)
    (item : List (String × JVal)) (hne : kmInit keywords ≠ []) :
    (∀ k, k ∈ kmMatched (kmInit keywords) item → k ∈ kmInit keywords) ∧
    (strict = true ∧ kmMatched (kmInit keywords) item = [] →
      keywordMatchingProcess (kmInit keywords) strict item
        = .error ("No matching keywords found in "
            ++ jstr (dget item "url" (JVal.s "")))) ∧
    (¬(strict = true ∧ kmMatched (kmInit keywords) item = []) →
      keywordMatchingProcess (kmInit keywords) strict item
        = .ok (dset item "matched_keywords"
            (JVal.arr ((kmMatched (kmInit keywords) item).map JVal.s)))) ∧
    keywordMatchingProcess (kmInit ["python", "rust"]) true
        [("title", JVal.s "Python Guide"),
         ("content", JVal.s "intro to python basics")]
      = .ok [("title", JVal.s "Python Guide"),
             ("content", JVal.s "intro to python basics"),
             ("matched_keywords", JVal.arr [JVal.s "python"])] := by
  refine ⟨fun k hk => List.mem_of_mem_filter hk, ?_, ?_, rfl⟩
  · rintro ⟨hs, hm⟩
    unfold keywordMatchingProcess
    rw [if_neg (by simpa using hne)]
    simp [hm, hs]
  · intro hns
    unfold keywordMatchingProcess
    rw [if_neg (by simpa using hne)]
    have hb : (strict && (kmMatched (kmInit keywords) item).isEmpty)
        = false := by
      rcases Bool.eq_false_or_eq_true strict with h | h
      · have hm : kmMatched (kmInit keywords) item ≠ [] :=
          fun he => hns ⟨h, he⟩
        simpa [h] using hm
      · simp [h]
    simp [hb]

theorem keyword_matcher_spec_witness :
    keywordMatchingProcess (kmInit ["python", "rust"]) true
        [("title", JVal.s "Python Guide"),
         ("content", JVal.s "intro to python basics")]
      = .ok [("title", JVal.s "Python Guide"),
             ("content", JVal.s "intro to python basics"),
             ("matched_keywords", JVal.arr [JVal.s "python"])] :=
  (keyword_matcher_spec ["python", "rust"] true
      [("title", JVal.s "Python Guide"),
       ("content", JVal.s "intro to python basics")] (by decide)).2.2.2

/-- C9: with the analyzer disabled, `parse_content` returns the fallback
result, which contains all six required keys (`summary`, `entities`,
`topics`, `sentiment`, `key_points`, `structured_data`), and its
`sentiment` value is one of the three enumerated strings. -/
theorem fallback_contract (apiAnalysis : Except String (List (String × JVal)))
    (content url title ts : String) :
    parse_content false apiAnalysis content url title ts
        = fallback_parse content url title ts ∧
    (∀ k, k ∈ ["summary", "entities", "topics", "sentiment", "key_points",
               "structured_data"] →
      dhas (fallback_parse content url title ts) k = true) ∧
    (dget (fallback_parse content url title ts) "sentiment" (JVal.s "")
        = JVal.s "positive" ∨
     dget (fallback_parse content url title ts) "sentiment" (JVal.s "")
        = JVal.s "neutral" ∨
     dget (fallback_parse content url title ts) "sentiment" (JVal.s "")
        = JVal.s "negative") := by
  refine ⟨rfl, ?_, ?_⟩
  · intro k hk
    fin_cases hk <;> rfl
  · have hsent : dget (fallback_parse content url title ts) "sentiment"
        (JVal.s "") = JVal.s (fallbackSentiment content) := rfl
    rw [hsent]
    unfold fallbackSentiment
    by_cases h1 : countContained positive_words (strLower content)
        > countContained negative_words (strLower content)
    · simp [h1]
    · by_cases h2 : countContained negative_words (strLower content)
          > countContained positive_words (strLower content)
      · simp [h1, h2]
      · simp [h1, h2]

theorem fallback_contract_witness :
    dhas (fallback_parse "good text" "u" "t" "now") "sentiment" = true :=
  (fallback_contract (Except.ok []) "good text" "u" "t" "now").2.1
    "sentiment" (by decide)

end Spec2Proof
